import Mathlib

/-!
Verification of the bulk mail dispatcher in `src/main.go` (package `main`).

The Go program keeps a SQLite-backed job queue (`email_queue`), drains it
with a pool of at most 10 goroutines (`sendEmails`), delivers one message
with up to 3 attempts and a flat 2-second backoff (`sendEmail`), and
substitutes the placeholder tokens `\x7bname\x7d` and `\x7bsender\x7d`
in the subject and body before delivery.

This file is a shallow embedding of those parts of the program:
pure Go code becomes Lean functions on `List Char` / `Nat`, the SQLite
table becomes a `List Job`, the concurrent worker pool becomes both a
sequential fold (for counter/summary claims, following the spec's
aggregator abstraction of the racy global counters) and a small-step
relation (for the in-flight bound), and network sub-step outcomes become
Boolean oracles.
-/

namespace NeonMails

/-! ## Constants (src/main.go lines 25-29, 268)

`emailDelay = 2 * time.Second` is the post-attempt pause slept by every
worker (line 304); `emailsPerHour = 180` is the declared hourly ceiling
(line 27, unused elsewhere in the code); `concurrency = 10` is the
capacity of the `sem` channel bounding the goroutine pool (lines 268-269).
The retry loop in `sendEmail` sleeps a literal `2 * time.Second` after
every failed sub-step (lines 341, 353, 361, ...); that constant is kept
separate as `retryBackoffSeconds`. -/

def emailDelaySeconds : Nat := 2

def emailsPerHour : Nat := 180

def concurrency : Nat := 10

def retryBackoffSeconds : Nat := 2

/-! ## Placeholder substitution (src/main.go lines 324-327)

The Go code runs, in this order:

  subject = strings.ReplaceAll(subject, "\x7bname\x7d", recipientName)
  subject = strings.ReplaceAll(subject, "\x7bsender\x7d", senderName)
  body    = strings.ReplaceAll(body,    "\x7bname\x7d", recipientName)
  body    = strings.ReplaceAll(body,    "\x7bsender\x7d", senderName)

`strings.ReplaceAll` scans left to right, replaces non-overlapping
occurrences, and never rescans the replacement text it has just
inserted.  The two functions below are that scan specialised to the two
literal patterns of the source (the patterns are ASCII, so bytes and
chars coincide). -/

def replaceAllName (rep : List Char) : List Char → List Char
  | '\x7b' :: 'n' :: 'a' :: 'm' :: 'e' :: '\x7d' :: rest => rep ++ replaceAllName rep rest
  | c :: rest => c :: replaceAllName rep rest
  | [] => []

def replaceAllSender (rep : List Char) : List Char → List Char
  | '\x7b' :: 's' :: 'e' :: 'n' :: 'd' :: 'e' :: 'r' :: '\x7d' :: rest =>
      rep ++ replaceAllSender rep rest
  | c :: rest => c :: replaceAllSender rep rest
  | [] => []

/-- Composition applied to the subject (and, identically, to the body):
first the recipient-name pass, then the sender-name pass, exactly in the
order of src/main.go lines 324-325. -/
def composeText (text recipientName senderName : List Char) : List Char :=
  replaceAllSender senderName (replaceAllName recipientName text)

/-! ## One delivery attempt (src/main.go lines 336-393)

Inside `sendEmail`'s `for i := 0; i < 3; i++` loop one attempt runs the
sub-steps Dial, (StartTLS when `smtpConfig.Port == 587`, lines 347-356),
Auth, Mail, Rcpt, Data, Write in that order; the first failing sub-step
aborts the attempt (sleep 2s, `continue`).  Whether each sub-step would
succeed is external (network/server behaviour), so it is an oracle
`SubOutcomes`; the model records the trace of performed actions. -/

structure SMTPConfig where
  Host : String
  Port : Int
  User : String
  Password : String
  From : String
  deriving DecidableEq, Repr

/-- Oracle for one attempt: whether each sub-step of src/main.go lines
338-389 would succeed if reached. -/
structure SubOutcomes where
  dial : Bool
  startTLS : Bool
  auth : Bool
  mail : Bool
  rcpt : Bool
  data : Bool
  write : Bool
  deriving DecidableEq, Repr

/-- Observable actions of an attempt; `sleepBackoff` is one
`time.Sleep(2 * time.Second)` of the retry loop. -/
inductive Action where
  | dial
  | startTLS
  | auth
  | mail
  | rcpt
  | data
  | write
  | sleepBackoff
  deriving DecidableEq, Repr

/-- Sub-steps after the connection is (possibly) upgraded:
Auth (line 359), Mail (366), Rcpt (371), Data (378), Write (385). -/
def afterConnect (o : SubOutcomes) : Bool × List Action :=
  if !o.auth then (false, [Action.auth])
  else if !o.mail then (false, [Action.auth, Action.mail])
  else if !o.rcpt then (false, [Action.auth, Action.mail, Action.rcpt])
  else if !o.data then (false, [Action.auth, Action.mail, Action.rcpt, Action.data])
  else if !o.write then
    (false, [Action.auth, Action.mail, Action.rcpt, Action.data, Action.write])
  else (true, [Action.auth, Action.mail, Action.rcpt, Action.data, Action.write])

/-- One iteration of the retry loop: Dial (line 338), then StartTLS
exactly when `cfg.Port == 587` (lines 347-356), then the remaining
sub-steps.  Returns whether the attempt succeeded and its action trace. -/
def attemptOnce (cfg : SMTPConfig) (o : SubOutcomes) : Bool × List Action :=
  if !o.dial then (false, [Action.dial])
  else if cfg.Port == 587 && !o.startTLS then (false, [Action.dial, Action.startTLS])
  else
    let tls : List Action := if cfg.Port == 587 then [Action.startTLS] else []
    let r := afterConnect o
    (r.1, Action.dial :: (tls ++ r.2))

/-- Result of `sendEmail`: `nil` or the wrapped error of line 395. -/
inductive SendResult where
  | ok
  | err (msg : String)
  deriving DecidableEq, Repr

/-- The error message of src/main.go line 395
(`fmt.Errorf("failed to send email to %s after multiple attempts", recipientEmail)`). -/
def exhaustedMsg (recipientEmail : String) : String :=
  "failed to send email to " ++ recipientEmail ++ " after multiple attempts"

/-- The loop bound `i < 3` of src/main.go line 336. -/
def maxAttempts : Nat := 3

/-- The retry loop of src/main.go lines 336-395, unrolled on remaining
fuel; `i` is the attempt index, `outs i` the oracle for attempt `i`.
A successful attempt returns `nil` at once (line 392); a failed attempt
sleeps 2 seconds and continues; exhausting the fuel falls through to the
error return of line 395. -/
def sendEmailLoop (cfg : SMTPConfig) (outs : Nat → SubOutcomes) (recipientEmail : String) :
    Nat → Nat → SendResult × List Action
  | _, 0 => (SendResult.err (exhaustedMsg recipientEmail), [])
  | i, rem + 1 =>
    let a := attemptOnce cfg (outs i)
    if a.1 then (SendResult.ok, a.2)
    else
      let r := sendEmailLoop cfg outs recipientEmail (i + 1) rem
      (r.1, a.2 ++ Action.sleepBackoff :: r.2)

/-- `sendEmail` (src/main.go lines 323-396) restricted to its control
flow: placeholder substitution (lines 324-327) is `composeText` above and
does not influence the loop, so the delivery outcome is the loop run with
attempt index 0 and `maxAttempts` fuel. -/
def sendEmail (cfg : SMTPConfig) (outs : Nat → SubOutcomes) (recipientEmail : String) :
    SendResult × List Action :=
  sendEmailLoop cfg outs recipientEmail 0 maxAttempts

/-- Whether attempt `o` (under config `cfg`) succeeds. -/
def attemptOk (cfg : SMTPConfig) (o : SubOutcomes) : Bool :=
  (attemptOnce cfg o).1

/-! ## The job store and a dispatch run (src/main.go lines 45-58, 69-88, 217-321)

The `email_queue` table (schema at lines 69-79: `id INTEGER PRIMARY KEY
AUTOINCREMENT`, text columns, `status TEXT DEFAULT 'pending'`) becomes a
`List Job`; the program only ever stores the two status strings
`'pending'` (the column default) and `'sent'` (the single UPDATE at line
297), so status is the closed enum below.  The package-level variables
`successCount`, `failureCount`, `totalEmails` (lines 55-57) live in
`AppState` together with the table; nothing in the program ever resets
them.  `nextId` models AUTOINCREMENT.

`sendEmails` (lines 230-321) launches one goroutine per fetched row; each
goroutine runs `sendEmail`, increments one counter, unconditionally
updates the row's status to `'sent'` (line 297 runs whether or not `err
!= nil`), and sends one progress event.  Following the spec's aggregator
abstraction (each resolved job increments exactly one counter and emits
exactly one event), the pool is modelled as a sequential fold over the
fetched snapshot, with the delivery outcome an oracle `deliver : Job →
Bool`. -/

inductive Status where
  | pending
  | sent
  deriving DecidableEq, Repr

/-- One row of `email_queue` (src/main.go lines 69-79). -/
structure Job where
  id : Nat
  senderName : String
  recipientName : String
  recipientEmail : String
  subject : String
  body : String
  status : Status
  deriving DecidableEq, Repr

/-- One record of the loaded recipient list (src/main.go lines 39-43). -/
structure Recipient where
  SenderName : String
  RecipientName : String
  RecipientEmail : String
  deriving DecidableEq, Repr

/-- The mutable process-global state the dispatch engine touches: the
`email_queue` rows and the package-level counters of src/main.go lines
55-57, plus the AUTOINCREMENT cursor. -/
structure AppState where
  queue : List Job
  successCount : Nat
  failureCount : Nat
  totalEmails : Nat
  nextId : Nat
  deriving DecidableEq, Repr

/-- One INSERT of `queueEmails` (src/main.go lines 219-222): the new row
takes the next AUTOINCREMENT id and the DEFAULT status `'pending'`. -/
def enqueueOne (subject body : String) (st : AppState) (r : Recipient) : AppState :=
  { st with
      queue := st.queue ++
        [⟨st.nextId, r.SenderName, r.RecipientName, r.RecipientEmail, subject, body,
          Status.pending⟩],
      nextId := st.nextId + 1 }

/-- `queueEmails` (src/main.go lines 217-228): insert every loaded
recipient with the loaded subject and body. -/
def queueEmails (recips : List Recipient) (subject body : String) (st : AppState) : AppState :=
  recips.foldl (enqueueOne subject body) st

/-- The UPDATE of src/main.go line 297:
`UPDATE email_queue SET status = 'sent' WHERE id = ?`. -/
def markSent (i : Nat) (queue : List Job) : List Job :=
  queue.map (fun j => if j.id = i then { j with status := Status.sent } else j)

/-- The body of one worker goroutine (src/main.go lines 283-305) under
the sequential aggregator abstraction: classify the delivery outcome
(lines 288-294), then unconditionally mark the row sent (line 297).  The
progress event of line 303 is emitted by the caller from the resulting
counters. -/
def processJob (deliver : Job → Bool) (st : AppState) (j : Job) : AppState :=
  let st1 :=
    if deliver j then { st with successCount := st.successCount + 1 }
    else { st with failureCount := st.failureCount + 1 }
  { st1 with queue := markSent j.id st1.queue }

/-- The rows the query of src/main.go line 232 returns:
`SELECT ... FROM email_queue WHERE status = 'pending'`, in table order. -/
def pendingJobs (st : AppState) : List Job :=
  st.queue.filter (fun j => j.status == Status.pending)

/-- `SELECT COUNT(*) FROM email_queue WHERE status = 'pending'`
(src/main.go line 241). -/
def countPending (st : AppState) : Nat :=
  (pendingJobs st).length

/-- What one `sendEmails` run returns to its observers: the state after
the run, the terminal summary of line 318 (`none` when the run bailed out
at line 249 without reporting counts), how many worker goroutines were
launched, and the `(successCount, failureCount)` snapshot carried by each
progress event of line 303. -/
structure RunResult where
  state : AppState
  summary : Option (Nat × Nat)
  launched : Nat
  events : List (Nat × Nat)
  deriving DecidableEq, Repr

/-- The fold over the fetched snapshot: process each job and append its
progress event. -/
def runJobs (deliver : Job → Bool) (acc : AppState × List (Nat × Nat)) (jobs : List Job) :
    AppState × List (Nat × Nat) :=
  jobs.foldl
    (fun acc j =>
      let st := processJob deliver acc.1 j
      (st, acc.2 ++ [(st.successCount, st.failureCount)]))
    acc

/-- `sendEmails` (src/main.go lines 230-321): fetch the pending snapshot
(line 232), store its size in the global `totalEmails` (line 241), return
early with no summary and no workers when it is zero (lines 248-251),
otherwise process every fetched job, then `DELETE FROM email_queue`
(line 311) and report the final counters (line 318). -/
def sendEmails (deliver : Job → Bool) (st : AppState) : RunResult :=
  let jobs := pendingJobs st
  let total := jobs.length
  let st0 := { st with totalEmails := total }
  if total = 0 then ⟨st0, none, 0, []⟩
  else
    let r := runJobs deliver (st0, []) jobs
    let cleared := { r.1 with queue := [] }
    ⟨cleared, some (cleared.successCount, cleared.failureCount), total, r.2⟩

/-- Status of the row with id `i`, if present (first match, as a SQL
point query on the primary key). -/
def rowStatus (st : AppState) (i : Nat) : Option Status :=
  (st.queue.find? (fun j => j.id == i)).map Job.status

/-- The operations the program performs against the store during its
lifetime: the startup/run-end `DELETE FROM email_queue` (lines 85, 311),
`queueEmails`, and a `sendEmails` run. -/
inductive Op where
  | clear
  | enqueue (recips : List Recipient) (subject body : String)
  | run (deliver : Job → Bool)

/-- Effect of one operation on the program state. -/
def applyOp : Op → AppState → AppState
  | Op.clear, st => { st with queue := [] }
  | Op.enqueue recips subject body, st => queueEmails recips subject body st
  | Op.run deliver, st => (sendEmails deliver st).state

/-! ## The bounded worker pool (src/main.go lines 267-308)

The dispatch loop acquires a slot on the `sem` channel of capacity
`concurrency` before launching each goroutine (line 282); the goroutine
releases its slot when its body finishes (line 285).  Small-step model:
`dispatch` needs a free slot and an unfetched row, `finish` retires one
in-flight worker. -/

structure PoolState where
  toDispatch : Nat
  inFlight : Nat
  done : Nat
  deriving DecidableEq, Repr

/-- One scheduler step of the dispatch loop with pool bound `c`. -/
inductive PoolStep (c : Nat) : PoolState → PoolState → Prop
  | dispatch (s : PoolState) (hp : 0 < s.toDispatch) (hc : s.inFlight < c) :
      PoolStep c s ⟨s.toDispatch - 1, s.inFlight + 1, s.done⟩
  | finish (s : PoolState) (hf : 0 < s.inFlight) :
      PoolStep c s ⟨s.toDispatch, s.inFlight - 1, s.done + 1⟩

/-- States reachable from `init` by scheduler steps. -/
inductive PoolReach (c : Nat) (init : PoolState) : PoolState → Prop
  | refl : PoolReach c init init
  | step {s t : PoolState} : PoolReach c init s → PoolStep c s t → PoolReach c init t

/-! ## Helper lemmas about a single attempt -/

/-- Every attempt trace records exactly one Dial. -/
theorem attemptOnce_count_dial (cfg : SMTPConfig) (o : SubOutcomes) :
    ((attemptOnce cfg o).2).count Action.dial = 1 := by
  unfold attemptOnce afterConnect
  split_ifs <;> simp [List.count_cons, List.count_append]

/-- No attempt trace contains a backoff sleep; sleeps belong to the retry
loop. -/
theorem attemptOnce_count_sleep (cfg : SMTPConfig) (o : SubOutcomes) :
    ((attemptOnce cfg o).2).count Action.sleepBackoff = 0 := by
  unfold attemptOnce afterConnect
  split_ifs <;> simp [List.count_cons, List.count_append]

/-- The sub-steps after the connection never perform StartTLS. -/
theorem afterConnect_no_tls (o : SubOutcomes) :
    Action.startTLS ∉ (afterConnect o).2 := by
  unfold afterConnect
  split_ifs <;> decide

/-- Unfolding the retry loop at zero fuel. -/
theorem sendEmailLoop_zero (cfg : SMTPConfig) (outs : Nat → SubOutcomes)
    (recipientEmail : String) (i : Nat) :
    sendEmailLoop cfg outs recipientEmail i 0
      = (SendResult.err (exhaustedMsg recipientEmail), []) := rfl

/-- Unfolding the retry loop at positive fuel. -/
theorem sendEmailLoop_succ (cfg : SMTPConfig) (outs : Nat → SubOutcomes)
    (recipientEmail : String) (i rem : Nat) :
    sendEmailLoop cfg outs recipientEmail i (rem + 1)
      = (let a := attemptOnce cfg (outs i)
         if a.1 then (SendResult.ok, a.2)
         else
           let r := sendEmailLoop cfg outs recipientEmail (i + 1) rem
           (r.1, a.2 ++ Action.sleepBackoff :: r.2)) := rfl

/-- Claim C2: a single `sendEmail` call performs at most 3 attempts
(`maxAttempts`); any successful attempt returns success immediately with
no further attempts (the Dial count is the index of the first successful
attempt plus one); each failed attempt is followed by one flat
2-second backoff sleep (`retryBackoffSeconds = 2`, so the Sleep count is
the number of failed attempts, including a sleep after the third failed
attempt before the loop exits); and if all 3 attempts fail the result is
the exhaustion error carrying the recipient address. -/
theorem sendEmail_retry_policy (cfg : SMTPConfig) (outs : Nat → SubOutcomes) (addr : String) :
    ((sendEmail cfg outs addr).1 =
        if attemptOk cfg (outs 0) then SendResult.ok
        else if attemptOk cfg (outs 1) then SendResult.ok
        else if attemptOk cfg (outs 2) then SendResult.ok
        else SendResult.err (exhaustedMsg addr))
    ∧ ((sendEmail cfg outs addr).2.count Action.dial =
        if attemptOk cfg (outs 0) then 1
        else if attemptOk cfg (outs 1) then 2
        else 3)
    ∧ ((sendEmail cfg outs addr).2.count Action.sleepBackoff =
        if attemptOk cfg (outs 0) then 0
        else if attemptOk cfg (outs 1) then 1
        else if attemptOk cfg (outs 2) then 2
        else 3)
    ∧ maxAttempts = 3 ∧ retryBackoffSeconds = 2 := by
  have h3 : maxAttempts = 2 + 1 := rfl
  have h2 : (2 : Nat) = 1 + 1 := rfl
  have h1 : (1 : Nat) = 0 + 1 := rfl
  unfold sendEmail
  rw [h3, sendEmailLoop_succ, h2, sendEmailLoop_succ, h1, sendEmailLoop_succ,
    sendEmailLoop_zero]
  simp only [attemptOk]
  by_cases ha0 : (attemptOnce cfg (outs 0)).1 = true <;>
    by_cases ha1 : (attemptOnce cfg (outs 1)).1 = true <;>
      by_cases ha2 : (attemptOnce cfg (outs 2)).1 = true <;>
        simp [ha0, ha1, ha2, List.count_append, List.count_cons,
          attemptOnce_count_dial, attemptOnce_count_sleep, retryBackoffSeconds]

/-- Claim C9: given an established connection, the attempt performs the
StartTLS upgrade exactly when the configured port is 587; for every
other port it proceeds without the upgrade. -/
theorem attempt_startTLS_iff_port587 (cfg : SMTPConfig) (o : SubOutcomes)
    (h : o.dial = true) :
    Action.startTLS ∈ (attemptOnce cfg o).2 ↔ cfg.Port = 587 := by
  unfold attemptOnce
  rw [h]
  by_cases hp : cfg.Port = 587
  · rcases hs : o.startTLS with _ | _ <;> simp [hp, hs]
  · have hp' : (cfg.Port == 587) = false := by
      simpa using hp
    simp [hp', hp]
    exact afterConnect_no_tls o

/-- Witness for claim C9 at a concrete config (port 587) and a concrete
attempt whose Dial succeeds. -/
theorem attempt_startTLS_iff_port587_witness :
    (SubOutcomes.mk true true true true true true true).dial = true ∧
      (Action.startTLS ∈
          (attemptOnce ⟨"smtp.example.org", 587, "u", "p", "f"⟩
            (SubOutcomes.mk true true true true true true true)).2 ↔
        (SMTPConfig.mk "smtp.example.org" 587 "u" "p" "f").Port = 587) :=
  ⟨rfl,
    attempt_startTLS_iff_port587 ⟨"smtp.example.org", 587, "u", "p", "f"⟩
      (SubOutcomes.mk true true true true true true true) rfl⟩

/-! ## The pool bound -/

/-- Claim C5: starting from a state with no worker in flight, no
reachable state of the dispatch pool has more than `concurrency = 10`
delivery workers in flight simultaneously. -/
theorem pool_inflight_bounded (N : Nat) (s : PoolState)
    (h : PoolReach concurrency ⟨N, 0, 0⟩ s) : s.inFlight ≤ concurrency := by
  induction h with
  | refl => exact Nat.zero_le _
  | step hr hstep ih =>
    cases hstep with
    | dispatch hp hc => exact hc
    | finish hf => exact Nat.le_trans (Nat.sub_le _ _) ih

/-- Witness for claim C5: a concrete reachable state (one job dispatched
out of three) respects the bound. -/
theorem pool_inflight_bounded_witness :
    PoolReach concurrency ⟨3, 0, 0⟩ ⟨2, 1, 0⟩ ∧
      (PoolState.mk 2 1 0).inFlight ≤ concurrency :=
  ⟨PoolReach.step PoolReach.refl
      (PoolStep.dispatch ⟨3, 0, 0⟩ (by decide) (by decide)),
    pool_inflight_bounded 3 ⟨2, 1, 0⟩
      (PoolReach.step PoolReach.refl
        (PoolStep.dispatch ⟨3, 0, 0⟩ (by decide) (by decide)))⟩

/-! ## Run-model lemmas -/

theorem find?_append_of_some {α : Type} (p : α → Bool) (l1 l2 : List α) (a : α)
    (h : l1.find? p = some a) : (l1 ++ l2).find? p = some a := by
  induction l1 with
  | nil => simp [List.find?] at h
  | cons x xs ih =>
    rw [List.cons_append]
    by_cases hx : p x = true
    · rw [List.find?_cons_of_pos _ hx] at h ⊢; exact h
    · rw [List.find?_cons_of_neg _ hx] at h ⊢; exact ih h

theorem find?_append_of_none {α : Type} (p : α → Bool) (l1 l2 : List α)
    (h : l1.find? p = none) : (l1 ++ l2).find? p = l2.find? p := by
  induction l1 with
  | nil => rfl
  | cons x xs ih =>
    rw [List.cons_append]
    by_cases hx : p x = true
    · rw [List.find?_cons_of_pos _ hx] at h; exact absurd h (by simp)
    · rw [List.find?_cons_of_neg _ hx] at h ⊢; exact ih h

/-- Classifying one job moves exactly one counter, touches neither the
total nor the id cursor, and rewrites the queue through `markSent`. -/
theorem processJob_fields (deliver : Job → Bool) (st : AppState) (j : Job) :
    (processJob deliver st j).successCount
        = st.successCount + (if deliver j then 1 else 0)
    ∧ (processJob deliver st j).failureCount
        = st.failureCount + (if deliver j then 0 else 1)
    ∧ (processJob deliver st j).totalEmails = st.totalEmails
    ∧ (processJob deliver st j).nextId = st.nextId
    ∧ (processJob deliver st j).queue = markSent j.id st.queue := by
  unfold processJob
  by_cases hd : deliver j <;> simp [hd]

/-- Unfolding the worker fold at a cons cell. -/
theorem runJobs_cons (deliver : Job → Bool) (acc : AppState × List (Nat × Nat))
    (j : Job) (rest : List Job) :
    runJobs deliver acc (j :: rest)
      = runJobs deliver
          (processJob deliver acc.1 j,
            acc.2 ++ [((processJob deliver acc.1 j).successCount,
              (processJob deliver acc.1 j).failureCount)])
          rest := rfl

/-- Each worker adds its outcome to the running counters: after the fold
the success counter has grown by the number of delivered jobs and the
failure counter by the number of failed ones. -/
theorem runJobs_counts (deliver : Job → Bool) (jobs : List Job) :
    ∀ (st : AppState) (evs : List (Nat × Nat)),
      (runJobs deliver (st, evs) jobs).1.successCount
          = st.successCount + (jobs.filter (fun j => deliver j)).length
      ∧ (runJobs deliver (st, evs) jobs).1.failureCount
          = st.failureCount + (jobs.filter (fun j => !(deliver j))).length := by
  induction jobs with
  | nil => intro st evs; simp [runJobs]
  | cons j rest ih =>
    intro st evs
    rw [runJobs_cons]
    rcases ih (processJob deliver st j)
        (evs ++ [((processJob deliver st j).successCount,
          (processJob deliver st j).failureCount)]) with ⟨ihs, ihf⟩
    rcases processJob_fields deliver st j with ⟨hs, hf, -, -, -⟩
    constructor
    · rw [ihs, hs]
      by_cases hd : deliver j <;> (simp [hd]; try omega)
    · rw [ihf, hf]
      by_cases hd : deliver j <;> (simp [hd]; try omega)

/-- Counters never decrease across one worker. -/
theorem processJob_counts_mono (deliver : Job → Bool) (st : AppState) (j : Job) :
    st.successCount ≤ (processJob deliver st j).successCount
    ∧ st.failureCount ≤ (processJob deliver st j).failureCount := by
  rcases processJob_fields deliver st j with ⟨hs, hf, -, -, -⟩
  constructor
  · rw [hs]; exact Nat.le_add_right _ _
  · rw [hf]; exact Nat.le_add_right _ _

/-- Every progress event emitted by the fold carries counters at least as
large as the counters the fold started from (earlier events excepted). -/
theorem runJobs_events_ge (deliver : Job → Bool) (jobs : List Job) :
    ∀ (st : AppState) (evs : List (Nat × Nat)) (a b : Nat),
      a ≤ st.successCount → b ≤ st.failureCount →
      (∀ e ∈ evs, a ≤ e.1 ∧ b ≤ e.2) →
      ∀ e ∈ (runJobs deliver (st, evs) jobs).2, a ≤ e.1 ∧ b ≤ e.2 := by
  induction jobs with
  | nil => intro st evs a b ha hb hevs e he; exact hevs e he
  | cons j rest ih =>
    intro st evs a b ha hb hevs e he
    rw [runJobs_cons] at he
    rcases processJob_counts_mono deliver st j with ⟨ms, mf⟩
    refine ih (processJob deliver st j) _ a b (le_trans ha ms) (le_trans hb mf) ?_ e he
    intro e' he'
    rcases List.mem_append.mp he' with h | h
    · exact hevs e' h
    · rcases List.mem_singleton.mp h with rfl
      exact ⟨le_trans ha ms, le_trans hb mf⟩

/-- A run over a nonempty pending snapshot: the terminal summary adds
this run's success and failure tallies to whatever the global counters
already held, the queue is purged, and one worker was launched per
fetched job. -/
theorem sendEmails_pos_spec (deliver : Job → Bool) (st : AppState)
    (h : 0 < countPending st) :
    (sendEmails deliver st).summary
        = some (st.successCount + ((pendingJobs st).filter (fun j => deliver j)).length,
            st.failureCount + ((pendingJobs st).filter (fun j => !(deliver j))).length)
    ∧ (sendEmails deliver st).state.queue = []
    ∧ (sendEmails deliver st).launched = countPending st
    ∧ (sendEmails deliver st).state.successCount
        = st.successCount + ((pendingJobs st).filter (fun j => deliver j)).length
    ∧ (sendEmails deliver st).state.failureCount
        = st.failureCount + ((pendingJobs st).filter (fun j => !(deliver j))).length
    ∧ ∀ e ∈ (sendEmails deliver st).events,
        st.successCount ≤ e.1 ∧ st.failureCount ≤ e.2 := by
  have hne : ¬ ((pendingJobs st).length = 0) := by
    unfold countPending at h; omega
  unfold sendEmails
  rcases runJobs_counts deliver (pendingJobs st)
      { st with totalEmails := (pendingJobs st).length } [] with ⟨hs, hf⟩
  simp only [hne, if_false, reduceIte]
  refine ⟨?_, ?_, ?_, ?_, ?_, ?_⟩
  · simp [hs, hf, countPending]
  · simp
  · simp [countPending]
  · simp [hs]
  · simp [hf]
  · intro e he
    exact runJobs_events_ge deliver (pendingJobs st)
      { st with totalEmails := (pendingJobs st).length } [] st.successCount st.failureCount
      (Nat.le_refl _) (Nat.le_refl _) (by intro e' he'; cases he') e he

/-- A run over an empty pending snapshot: no summary, no workers, no
events, the queue untouched (only the global `totalEmails` is set to 0). -/
theorem sendEmails_zero_spec (deliver : Job → Bool) (st : AppState)
    (h : countPending st = 0) :
    (sendEmails deliver st).summary = none
    ∧ (sendEmails deliver st).launched = 0
    ∧ (sendEmails deliver st).state.queue = st.queue
    ∧ (sendEmails deliver st).events = []
    ∧ (sendEmails deliver st).state.successCount = st.successCount
    ∧ (sendEmails deliver st).state.failureCount = st.failureCount := by
  have h0 : (pendingJobs st).length = 0 := h
  unfold sendEmails
  simp [h0]

/-- `queueEmails` appends its batch: the queue grows by one row per
recipient, every new row is `pending`, and counters are untouched. -/
theorem queueEmails_spec (recips : List Recipient) (subject body : String) :
    ∀ st : AppState, ∃ extra : List Job,
      (queueEmails recips subject body st).queue = st.queue ++ extra
      ∧ (∀ j ∈ extra, j.status = Status.pending)
      ∧ extra.length = recips.length
      ∧ (queueEmails recips subject body st).successCount = st.successCount
      ∧ (queueEmails recips subject body st).failureCount = st.failureCount := by
  induction recips with
  | nil => intro st; exact ⟨[], by simp [queueEmails], by simp, rfl, rfl, rfl⟩
  | cons r rest ih =>
    intro st
    have hstep : queueEmails (r :: rest) subject body st
        = queueEmails rest subject body (enqueueOne subject body st r) := rfl
    rcases ih (enqueueOne subject body st r) with ⟨extra, hq, hpend, hlen, hsc, hfc⟩
    refine ⟨⟨st.nextId, r.SenderName, r.RecipientName, r.RecipientEmail, subject, body,
        Status.pending⟩ :: extra, ?_, ?_, ?_, ?_, ?_⟩
    · rw [hstep, hq]
      simp [enqueueOne]
    · intro j hj
      rcases List.mem_cons.mp hj with rfl | hj
      · rfl
      · exact hpend j hj
    · simp [hlen]
    · rw [hstep, hsc]; rfl
    · rw [hstep, hfc]; rfl

/-- Marking an id present in the queue makes its row read back `sent`. -/
theorem markSent_rowStatus (i : Nat) (q : List Job) :
    (∃ j ∈ q, j.id = i) →
    ((markSent i q).find? (fun j => j.id == i)).map Job.status = some Status.sent := by
  induction q with
  | nil => rintro ⟨j, hj, -⟩; cases hj
  | cons x xs ih =>
    rintro ⟨j, hj, hid⟩
    by_cases hx : x.id = i
    · have hcond : ((if x.id = i then { x with status := Status.sent } else x).id == i) = true := by
        rw [if_pos hx]; exact beq_iff_eq.mpr hx
      simp only [markSent, List.map_cons, List.find?_cons, hcond]
      rw [if_pos hx]
      rfl
    · have hcond : ((if x.id = i then { x with status := Status.sent } else x).id == i) = false := by
        rw [if_neg hx]; simpa using hx
      have hj' : j ∈ xs := by
        rcases List.mem_cons.mp hj with rfl | hm
        · exact absurd hid hx
        · exact hm
      simp only [markSent, List.map_cons, List.find?_cons, hcond]
      exact ih ⟨j, hj', hid⟩

/-- Sample row and state used by the concrete counterexamples and
witnesses below. -/
def sampleJob : Job :=
  ⟨1, "Ann", "Bob", "bob@example.org", "su", "b", Status.pending⟩

def sampleState : AppState := ⟨[sampleJob], 0, 0, 0, 2⟩

def sampleRecipient : Recipient := ⟨"Ann", "Cam", "cam@example.org"⟩

/-! ## Placeholder substitution lemmas -/

/-- The recipient-name placeholder of src/main.go line 324. -/
def nameToken : List Char := ['\x7b', 'n', 'a', 'm', 'e', '\x7d']

/-- The sender-name placeholder of src/main.go line 325. -/
def senderToken : List Char := ['\x7b', 's', 'e', 'n', 'd', 'e', 'r', '\x7d']

/-- Fragments interleaved with a separator: the canonical shape of a
template whose token occurrences are exactly the separators, provided the
fragments contain no opening brace. -/
def joinWith (sep : List Char) : List (List Char) → List Char
  | [] => []
  | [p] => p
  | p :: ps => p ++ sep ++ joinWith sep ps

theorem replaceAllName_nil (rep : List Char) : replaceAllName rep [] = [] := rfl

theorem replaceAllName_token (rep rest : List Char) :
    replaceAllName rep (nameToken ++ rest) = rep ++ replaceAllName rep rest := rfl

theorem replaceAllSender_nil (rep : List Char) : replaceAllSender rep [] = [] := rfl

theorem replaceAllSender_token (rep rest : List Char) :
    replaceAllSender rep (senderToken ++ rest) = rep ++ replaceAllSender rep rest := rfl

/-- The recipient-name pass walks over the sender token: its second
character is `s`, not `n`. -/
theorem replaceAllName_senderToken (rep rest : List Char) :
    replaceAllName rep (senderToken ++ rest)
      = '\x7b' :: 's' :: 'e' :: 'n' :: 'd' :: 'e' :: 'r' :: '\x7d' :: replaceAllName rep rest :=
  rfl

/-- A character other than the opening brace is copied unchanged by the
recipient-name pass. -/
theorem replaceAllName_cons_ne (rep : List Char) (c : Char) (s : List Char)
    (h : c ≠ '\x7b') :
    replaceAllName rep (c :: s) = c :: replaceAllName rep s := by
  rw [replaceAllName.eq_def]
  split
  · next heq => rw [List.cons.injEq] at heq; exact absurd heq.1 h
  · next c' rest hg hne => rw [List.cons.injEq] at hne; rw [hne.1, hne.2]
  · next heq => exact absurd heq (List.cons_ne_nil c s)

/-- A character other than the opening brace is copied unchanged by the
sender-name pass. -/
theorem replaceAllSender_cons_ne (rep : List Char) (c : Char) (s : List Char)
    (h : c ≠ '\x7b') :
    replaceAllSender rep (c :: s) = c :: replaceAllSender rep s := by
  rw [replaceAllSender.eq_def]
  split
  · next heq => rw [List.cons.injEq] at heq; exact absurd heq.1 h
  · next c' rest hg hne => rw [List.cons.injEq] at hne; rw [hne.1, hne.2]
  · next heq => exact absurd heq (List.cons_ne_nil c s)

/-- A brace-free block passes through the recipient-name pass unchanged. -/
theorem replaceAllName_append_of_no_brace (rep part t : List Char)
    (h : '\x7b' ∉ part) :
    replaceAllName rep (part ++ t) = part ++ replaceAllName rep t := by
  induction part with
  | nil => rfl
  | cons c p ih =>
    rw [List.mem_cons, not_or] at h
    have hc : c ≠ '\x7b' := fun hq => h.1 hq.symm
    rw [List.cons_append, replaceAllName_cons_ne rep c _ hc, ih h.2]
    rfl

/-- A brace-free block passes through the sender-name pass unchanged. -/
theorem replaceAllSender_append_of_no_brace (rep part t : List Char)
    (h : '\x7b' ∉ part) :
    replaceAllSender rep (part ++ t) = part ++ replaceAllSender rep t := by
  induction part with
  | nil => rfl
  | cons c p ih =>
    rw [List.mem_cons, not_or] at h
    have hc : c ≠ '\x7b' := fun hq => h.1 hq.symm
    rw [List.cons_append, replaceAllSender_cons_ne rep c _ hc, ih h.2]
    rfl

/-- A brace-free string is a fixed point of the recipient-name pass. -/
theorem replaceAllName_of_no_brace (rep s : List Char) (h : '\x7b' ∉ s) :
    replaceAllName rep s = s := by
  have := replaceAllName_append_of_no_brace rep s [] h
  simpa [replaceAllName_nil] using this

/-- A brace-free string is a fixed point of the sender-name pass. -/
theorem replaceAllSender_of_no_brace (rep s : List Char) (h : '\x7b' ∉ s) :
    replaceAllSender rep s = s := by
  have := replaceAllSender_append_of_no_brace rep s [] h
  simpa [replaceAllSender_nil] using this

/-- Characters of a joined string come from the separator or from one of
the fragments. -/
theorem mem_joinWith (sep : List Char) (parts : List (List Char)) (x : Char)
    (hx : x ∈ joinWith sep parts) : x ∈ sep ∨ ∃ p ∈ parts, x ∈ p := by
  induction parts with
  | nil => simp [joinWith] at hx
  | cons p ps ih =>
    cases ps with
    | nil =>
      exact Or.inr ⟨p, List.mem_cons_self p [], hx⟩
    | cons q ps' =>
      rw [show joinWith sep (p :: q :: ps') = p ++ sep ++ joinWith sep (q :: ps') from rfl,
        List.append_assoc, List.mem_append, List.mem_append] at hx
      rcases hx with hp | hsep | hrest
      · exact Or.inr ⟨p, List.mem_cons_self p _, hp⟩
      · exact Or.inl hsep
      · rcases ih hrest with h | ⟨r, hr, hxr⟩
        · exact Or.inl h
        · exact Or.inr ⟨r, List.mem_cons_of_mem p hr, hxr⟩

/-- The recipient-name pass replaces every (separator) occurrence of the
name token, leaving brace-free fragments intact. -/
theorem replaceAllName_joinWith (rep : List Char) (parts : List (List Char))
    (h : ∀ p ∈ parts, '\x7b' ∉ p) :
    replaceAllName rep (joinWith nameToken parts) = joinWith rep parts := by
  induction parts with
  | nil => rfl
  | cons p ps ih =>
    cases ps with
    | nil =>
      exact replaceAllName_of_no_brace rep p (h p (List.mem_cons_self p []))
    | cons q ps' =>
      have hp : '\x7b' ∉ p := h p (List.mem_cons_self p _)
      have hps : ∀ r ∈ q :: ps', '\x7b' ∉ r := fun r hr => h r (List.mem_cons_of_mem p hr)
      rw [show joinWith nameToken (p :: q :: ps') = p ++ (nameToken ++ joinWith nameToken (q :: ps'))
            from by rw [← List.append_assoc]; rfl,
        replaceAllName_append_of_no_brace rep p _ hp,
        replaceAllName_token, ih hps,
        show p ++ (rep ++ joinWith rep (q :: ps')) = p ++ rep ++ joinWith rep (q :: ps')
            from (List.append_assoc p rep _).symm]
      rfl

/-- The sender-name pass replaces every (separator) occurrence of the
sender token, leaving brace-free fragments intact. -/
theorem replaceAllSender_joinWith (rep : List Char) (parts : List (List Char))
    (h : ∀ p ∈ parts, '\x7b' ∉ p) :
    replaceAllSender rep (joinWith senderToken parts) = joinWith rep parts := by
  induction parts with
  | nil => rfl
  | cons p ps ih =>
    cases ps with
    | nil =>
      exact replaceAllSender_of_no_brace rep p (h p (List.mem_cons_self p []))
    | cons q ps' =>
      have hp : '\x7b' ∉ p := h p (List.mem_cons_self p _)
      have hps : ∀ r ∈ q :: ps', '\x7b' ∉ r := fun r hr => h r (List.mem_cons_of_mem p hr)
      rw [show joinWith senderToken (p :: q :: ps')
            = p ++ (senderToken ++ joinWith senderToken (q :: ps'))
            from by rw [← List.append_assoc]; rfl,
        replaceAllSender_append_of_no_brace rep p _ hp,
        replaceAllSender_token, ih hps,
        show p ++ (rep ++ joinWith rep (q :: ps')) = p ++ rep ++ joinWith rep (q :: ps')
            from (List.append_assoc p rep _).symm]
      rfl

/-- The recipient-name pass leaves a string whose only braces open sender
tokens unchanged. -/
theorem replaceAllName_joinWith_senderToken (rep : List Char) (parts : List (List Char))
    (h : ∀ p ∈ parts, '\x7b' ∉ p) :
    replaceAllName rep (joinWith senderToken parts) = joinWith senderToken parts := by
  induction parts with
  | nil => rfl
  | cons p ps ih =>
    cases ps with
    | nil =>
      exact replaceAllName_of_no_brace rep p (h p (List.mem_cons_self p []))
    | cons q ps' =>
      have hp : '\x7b' ∉ p := h p (List.mem_cons_self p _)
      have hps : ∀ r ∈ q :: ps', '\x7b' ∉ r := fun r hr => h r (List.mem_cons_of_mem p hr)
      rw [show joinWith senderToken (p :: q :: ps')
            = p ++ (senderToken ++ joinWith senderToken (q :: ps'))
            from by rw [← List.append_assoc]; rfl,
        replaceAllName_append_of_no_brace rep p _ hp,
        replaceAllName_senderToken, ih hps]
      rfl

/-- Claim C3 counterexample: the claim predicts that a literal sender
token contained in the substituted recipient-name value is not itself
re-substituted, i.e. that subject `\x7bname\x7d` with recipient name
`\x7bsender\x7d` and sender name `Alice` resolves to `\x7bsender\x7d`;
the code's second pass rescans the text inserted by the first pass and
resolves it to `Alice` instead. -/
theorem substitution_counterexample :
    composeText "\x7bname\x7d".toList "\x7bsender\x7d".toList "Alice".toList
        = "Alice".toList ∧
      "Alice".toList ≠ "\x7bsender\x7d".toList := by decide

/-- Claim C3 amended: delivery composes the message by two sequential
case-sensitive single-pass substitutions, first every occurrence of the
name token by the recipient display name, then every occurrence of the
sender token in the result by the sender display name.  Text inserted by
a pass is never rescanned by that same pass, so a name token inside
either name value and a sender token inside the sender name survive; but
a sender token inside the recipient name is inserted by the first pass
and therefore IS substituted by the second.  The spec's concrete example
holds. -/
theorem substitution_sequential :
    (∀ (parts : List (List Char)) (rn sn : List Char),
        (∀ p ∈ parts, '\x7b' ∉ p) → '\x7b' ∉ rn → '\x7b' ∉ sn →
        composeText (joinWith nameToken parts) rn sn = joinWith rn parts)
    ∧ (∀ (parts : List (List Char)) (rn sn : List Char),
        (∀ p ∈ parts, '\x7b' ∉ p) → '\x7b' ∉ rn → '\x7b' ∉ sn →
        composeText (joinWith senderToken parts) rn sn = joinWith sn parts)
    ∧ composeText "Hi \x7bname\x7d from \x7bsender\x7d".toList "Bob".toList "Alice".toList
        = "Hi Bob from Alice".toList
    ∧ composeText "\x7bname\x7d".toList "\x7bsender\x7d".toList "Alice".toList
        = "Alice".toList
    ∧ composeText "\x7bname\x7d".toList "x\x7bname\x7dy".toList "S".toList
        = "x\x7bname\x7dy".toList
    ∧ composeText "\x7bsender\x7d".toList "B".toList "x\x7bname\x7dy".toList
        = "x\x7bname\x7dy".toList
    ∧ composeText "\x7bsender\x7d".toList "B".toList "x\x7bsender\x7dy".toList
        = "x\x7bsender\x7dy".toList
    ∧ composeText "\x7bName\x7d \x7bSENDER\x7d".toList "B".toList "S".toList
        = "\x7bName\x7d \x7bSENDER\x7d".toList := by
  refine ⟨?_, ?_, by decide, by decide, by decide, by decide, by decide, by decide⟩
  · intro parts rn sn hparts hrn hsn
    unfold composeText
    rw [replaceAllName_joinWith rn parts hparts]
    apply replaceAllSender_of_no_brace
    intro hx
    rcases mem_joinWith rn parts '\x7b' hx with h | ⟨p, hp, hxp⟩
    · exact hrn h
    · exact hparts p hp hxp
  · intro parts rn sn hparts hrn hsn
    unfold composeText
    rw [replaceAllName_joinWith_senderToken rn parts hparts]
    exact replaceAllSender_joinWith sn parts hparts

/-- Witness for the amended claim C3: the universal conjuncts applied to
the concrete template fragments `Dear `/`!` with recipient `Bob` and
sender `Alice`. -/
theorem substitution_sequential_witness :
    composeText (joinWith nameToken ["Dear ".toList, "!".toList]) "Bob".toList "Alice".toList
        = joinWith "Bob".toList ["Dear ".toList, "!".toList]
    ∧ composeText (joinWith senderToken ["Dear ".toList, "!".toList]) "Bob".toList "Alice".toList
        = joinWith "Alice".toList ["Dear ".toList, "!".toList] :=
  ⟨(substitution_sequential.1) ["Dear ".toList, "!".toList] "Bob".toList "Alice".toList
      (by decide) (by decide) (by decide),
    (substitution_sequential.2.1) ["Dear ".toList, "!".toList] "Bob".toList "Alice".toList
      (by decide) (by decide) (by decide)⟩

/-! ## The rate-governor arithmetic -/

/-- Claim C6 counterexample: the program's constants do not satisfy the
contract `concurrency * 1800 <= emailsPerHour` (10 * 1800 = 18000 > 180). -/
theorem rate_contract_counterexample :
    ¬ (concurrency * 1800 ≤ emailsPerHour) := by decide

/-- Claim C6 amended: with a flat `emailDelaySeconds = 2` pause per
worker and `concurrency = 10` workers, the sustained capacity is
`concurrency * (3600 / emailDelaySeconds) = 18000` deliveries per hour,
which exceeds — not respects — the declared `emailsPerHour = 180`
ceiling by a factor of 100. -/
theorem rate_contract_violated :
    concurrency * (3600 / emailDelaySeconds) = 18000 ∧
      emailsPerHour = 180 ∧
      emailsPerHour < concurrency * (3600 / emailDelaySeconds) := by decide

/-! ## Batch summaries and counters -/

/-- Claim C1 counterexample: a run with zero pending jobs reports no
summary at all, and because the package-level counters survive across
runs, a second one-job run (after a first one-job run that succeeded)
reports the cumulative summary `(2, 0)` whose total is not the batch
size 1. -/
theorem batch_summary_counterexample :
    (sendEmails (fun _ => true) (AppState.mk [] 0 0 0 1)).summary = none
    ∧ countPending (queueEmails [sampleRecipient] "su" "b"
        (sendEmails (fun _ => true) sampleState).state) = 1
    ∧ (sendEmails (fun _ => true)
        (queueEmails [sampleRecipient] "su" "b"
          (sendEmails (fun _ => true) sampleState).state)).summary = some (2, 0)
    ∧ ¬ ((2 : Nat) + 0 = 1) := by decide

/-- Claim C1 amended: for the process's first completed dispatch run
(global counters still zero) over a batch of N ≥ 1 pending jobs, the
summary reports exactly the delivered and failed tallies, these tallies
partition the N fetched jobs (each fetched job is counted exactly once),
and the store is purged; a batch of 0 jobs produces no summary, and
later runs report cumulative counts because the counters are never
reset. -/
theorem first_run_summary (deliver : Job → Bool) (st : AppState)
    (hs : st.successCount = 0) (hf : st.failureCount = 0)
    (hN : 0 < countPending st) :
    (sendEmails deliver st).summary
        = some (((pendingJobs st).filter (fun j => deliver j)).length,
            ((pendingJobs st).filter (fun j => !(deliver j))).length)
    ∧ ((pendingJobs st).filter (fun j => deliver j)).length
        + ((pendingJobs st).filter (fun j => !(deliver j))).length = countPending st
    ∧ (sendEmails deliver st).state.queue = [] := by
  rcases sendEmails_pos_spec deliver st hN with ⟨hsum, hq, -, -, -, -⟩
  refine ⟨by rw [hsum, hs, hf]; simp, ?_, hq⟩
  unfold countPending
  exact (List.length_eq_length_filter_add (fun j => deliver j)).symm

/-- Witness for the amended claim C1 at a concrete one-job batch that
succeeds. -/
theorem first_run_summary_witness :
    sampleState.successCount = 0 ∧ sampleState.failureCount = 0
    ∧ 0 < countPending sampleState
    ∧ ((sendEmails (fun _ => true) sampleState).summary = some (1, 0)
       ∧ 1 + 0 = countPending sampleState
       ∧ (sendEmails (fun _ => true) sampleState).state.queue = []) :=
  ⟨rfl, rfl, by decide, first_run_summary (fun _ => true) sampleState rfl rfl (by decide)⟩

/-- Claim C4 counterexample: a worker whose delivery FAILED still leaves
its row marked `sent` (the UPDATE of src/main.go line 297 runs
unconditionally), while the failure is counted. -/
theorem mark_sent_counterexample :
    rowStatus (processJob (fun _ => false) sampleState sampleJob) sampleJob.id
        = some Status.sent
    ∧ (processJob (fun _ => false) sampleState sampleJob).failureCount
        = sampleState.failureCount + 1 := by decide

/-- Claim C4 amended: the worker classifies the outcome into exactly one
counter, but calls the status update unconditionally: the processed
job's row reads back `sent` whether the delivery succeeded or exhausted
its retries and failed. -/
theorem worker_marks_sent_unconditionally (deliver : Job → Bool) (st : AppState)
    (j : Job) (h : j ∈ st.queue) :
    rowStatus (processJob deliver st j) j.id = some Status.sent
    ∧ (processJob deliver st j).successCount
        = st.successCount + (if deliver j then 1 else 0)
    ∧ (processJob deliver st j).failureCount
        = st.failureCount + (if deliver j then 0 else 1) := by
  rcases processJob_fields deliver st j with ⟨hsc, hfc, -, -, hq⟩
  refine ⟨?_, hsc, hfc⟩
  unfold rowStatus
  rw [hq]
  exact markSent_rowStatus j.id st.queue ⟨j, h, rfl⟩

/-- Witness for the amended claim C4 at a concrete queued job whose
delivery succeeds. -/
theorem worker_marks_sent_unconditionally_witness :
    sampleJob ∈ sampleState.queue
    ∧ (rowStatus (processJob (fun _ => true) sampleState sampleJob) sampleJob.id
          = some Status.sent
       ∧ (processJob (fun _ => true) sampleState sampleJob).successCount
          = sampleState.successCount + 1
       ∧ (processJob (fun _ => true) sampleState sampleJob).failureCount
          = sampleState.failureCount + 0) :=
  ⟨by decide,
    worker_marks_sent_unconditionally (fun _ => true) sampleState sampleJob (by decide)⟩

/-- Claim C7: under every operation of the program — the startup/run-end
purge, a batch enqueue, a dispatch run — every row id either disappears,
keeps its status, is promoted from `pending` to `sent`, or is freshly
created as `pending`.  In particular rows are created `pending`, the
only status write is to `sent`, and `sent` never reverts to `pending`. -/
theorem status_pending_to_sent (op : Op) (st : AppState) (i : Nat) :
    rowStatus (applyOp op st) i = none
    ∨ rowStatus (applyOp op st) i = rowStatus st i
    ∨ (rowStatus st i = some Status.pending
        ∧ rowStatus (applyOp op st) i = some Status.sent)
    ∨ (rowStatus st i = none
        ∧ rowStatus (applyOp op st) i = some Status.pending) := by
  cases op with
  | clear => exact Or.inl rfl
  | enqueue recips subject body =>
    rcases queueEmails_spec recips subject body st with ⟨extra, hq, hpend, -, -, -⟩
    cases hfind : st.queue.find? (fun j => j.id == i) with
    | some a =>
      refine Or.inr (Or.inl ?_)
      simp only [applyOp]
      unfold rowStatus
      rw [hq, find?_append_of_some (fun j => j.id == i) st.queue extra a hfind, hfind]
    | none =>
      cases hfind2 : extra.find? (fun j => j.id == i) with
      | none =>
        refine Or.inl ?_
        simp only [applyOp]
        unfold rowStatus
        rw [hq, find?_append_of_none (fun j => j.id == i) st.queue extra hfind, hfind2]
        rfl
      | some a =>
        refine Or.inr (Or.inr (Or.inr ⟨?_, ?_⟩))
        · unfold rowStatus; rw [hfind]; rfl
        · simp only [applyOp]
          unfold rowStatus
          rw [hq, find?_append_of_none (fun j => j.id == i) st.queue extra hfind, hfind2]
          simp [hpend a (List.mem_of_find?_eq_some hfind2)]
  | run deliver =>
    by_cases hcp : countPending st = 0
    · rcases sendEmails_zero_spec deliver st hcp with ⟨-, -, hq, -, -, -⟩
      refine Or.inr (Or.inl ?_)
      simp only [applyOp]
      unfold rowStatus
      rw [hq]
    · have hpos : 0 < countPending st := Nat.pos_of_ne_zero hcp
      rcases sendEmails_pos_spec deliver st hpos with ⟨-, hq, -, -, -, -⟩
      refine Or.inl ?_
      simp only [applyOp]
      unfold rowStatus
      rw [hq]
      rfl

/-- Claim C8 counterexample: a run that starts with zero pending jobs
does not report the terminal summary `(0, 0)` the claim promises — it
bails out at src/main.go line 249 with no summary at all. -/
theorem zero_jobs_counterexample :
    (sendEmails (fun _ => true) (AppState.mk [] 0 0 0 1)).summary ≠ some (0, 0) := by
  decide

/-- Claim C8 amended: a run that starts with zero pending jobs returns
immediately: it launches no workers, emits no progress events, reports
no sent/failed summary (only a "nothing to do" message), performs no
purge, and leaves the queue exactly as it was — empty whenever it held
only pending rows. -/
theorem zero_jobs_run (deliver : Job → Bool) (st : AppState)
    (h : countPending st = 0) :
    (sendEmails deliver st).summary = none
    ∧ (sendEmails deliver st).launched = 0
    ∧ (sendEmails deliver st).state.queue = st.queue
    ∧ (sendEmails deliver st).events = [] := by
  rcases sendEmails_zero_spec deliver st h with ⟨h1, h2, h3, h4, -, -⟩
  exact ⟨h1, h2, h3, h4⟩

/-- Witness for the amended claim C8 at the concrete empty store. -/
theorem zero_jobs_run_witness :
    countPending (AppState.mk [] 0 0 0 1) = 0
    ∧ ((sendEmails (fun _ => true) (AppState.mk [] 0 0 0 1)).summary = none
       ∧ (sendEmails (fun _ => true) (AppState.mk [] 0 0 0 1)).launched = 0
       ∧ (sendEmails (fun _ => true) (AppState.mk [] 0 0 0 1)).state.queue
          = (AppState.mk [] 0 0 0 1).queue
       ∧ (sendEmails (fun _ => true) (AppState.mk [] 0 0 0 1)).events = []) :=
  ⟨rfl, zero_jobs_run (fun _ => true) (AppState.mk [] 0 0 0 1) rfl⟩

/-- Claim C10: the run counters are process-global and never reset.  For
two consecutive runs in one process (first run over a nonempty batch
with fresh counters, then a nonempty batch enqueued and run again), the
second run's terminal summary adds the second run's tallies on top of
the counters left by the first run — whose sum is the entire first
batch — and every progress event of the second run already carries
counters summing to at least the whole first batch, so neither the
summary nor the progress fractions describe the second run alone. -/
theorem counters_never_reset (d1 d2 : Job → Bool) (st : AppState)
    (hs : st.successCount = 0) (hf : st.failureCount = 0)
    (h1 : 0 < countPending st)
    (recips : List Recipient) (subject body : String) (h2 : recips ≠ []) :
    (sendEmails d2 (queueEmails recips subject body (sendEmails d1 st).state)).summary
        = some
          ((sendEmails d1 st).state.successCount
              + ((pendingJobs (queueEmails recips subject body
                    (sendEmails d1 st).state)).filter (fun j => d2 j)).length,
            (sendEmails d1 st).state.failureCount
              + ((pendingJobs (queueEmails recips subject body
                    (sendEmails d1 st).state)).filter (fun j => !(d2 j))).length)
    ∧ (sendEmails d1 st).state.successCount + (sendEmails d1 st).state.failureCount
        = countPending st
    ∧ countPending (queueEmails recips subject body (sendEmails d1 st).state)
        = recips.length
    ∧ (sendEmails d2 (queueEmails recips subject body (sendEmails d1 st).state)).events.all
        (fun e => decide (countPending st ≤ e.1 + e.2)) = true := by
  rcases sendEmails_pos_spec d1 st h1 with ⟨-, hq1, -, hsc1, hfc1, -⟩
  rcases queueEmails_spec recips subject body (sendEmails d1 st).state with
    ⟨extra, hq2, hpend, hlen, hsc2, hfc2⟩
  have hpend2 : pendingJobs (queueEmails recips subject body (sendEmails d1 st).state)
      = extra := by
    unfold pendingJobs
    rw [hq2, hq1]
    simp only [List.nil_append]
    exact List.filter_eq_self.mpr (fun j hj => by simp [hpend j hj])
  have hcp2 : countPending (queueEmails recips subject body (sendEmails d1 st).state)
      = recips.length := by
    unfold countPending
    rw [hpend2, hlen]
  have hpos2 : 0 < countPending (queueEmails recips subject body (sendEmails d1 st).state) := by
    rw [hcp2]
    exact List.length_pos.mpr h2
  rcases sendEmails_pos_spec d2 (queueEmails recips subject body (sendEmails d1 st).state)
      hpos2 with ⟨hsum2, -, -, -, -, hev2⟩
  have hN1 : (sendEmails d1 st).state.successCount + (sendEmails d1 st).state.failureCount
      = countPending st := by
    have hsplit : (pendingJobs st).length
        = ((pendingJobs st).filter (fun j => d1 j)).length
          + ((pendingJobs st).filter (fun j => !(d1 j))).length :=
      List.length_eq_length_filter_add (fun j => d1 j)
    rw [hsc1, hfc1, hs, hf]
    unfold countPending
    omega
  refine ⟨?_, hN1, hcp2, ?_⟩
  · rw [hsum2, hsc2, hfc2]
  · rw [List.all_eq_true]
    intro e he
    rcases hev2 e he with ⟨he1, he2⟩
    have hle : countPending st ≤ e.1 + e.2 := by
      rw [← hN1, ← hsc2, ← hfc2]
      exact Nat.add_le_add he1 he2
    exact decide_eq_true hle

/-- Witness for claim C10: a successful one-job first run followed by a
successful one-job second run reports the cumulative summary `(2, 0)`. -/
theorem counters_never_reset_witness :
    sampleState.successCount = 0 ∧ sampleState.failureCount = 0
    ∧ 0 < countPending sampleState
    ∧ ([sampleRecipient] : List Recipient) ≠ []
    ∧ ((sendEmails (fun _ => true)
          (queueEmails [sampleRecipient] "su" "b"
            (sendEmails (fun _ => true) sampleState).state)).summary = some (2, 0)
       ∧ (sendEmails (fun _ => true) sampleState).state.successCount
            + (sendEmails (fun _ => true) sampleState).state.failureCount
          = countPending sampleState
       ∧ countPending (queueEmails [sampleRecipient] "su" "b"
            (sendEmails (fun _ => true) sampleState).state)
          = ([sampleRecipient] : List Recipient).length
       ∧ (sendEmails (fun _ => true)
            (queueEmails [sampleRecipient] "su" "b"
              (sendEmails (fun _ => true) sampleState).state)).events.all
            (fun e => decide (countPending sampleState ≤ e.1 + e.2)) = true) :=
  ⟨rfl, rfl, by decide, by decide,
    counters_never_reset (fun _ => true) (fun _ => true) sampleState rfl rfl (by decide)
      [sampleRecipient] "su" "b" (by decide)⟩

end NeonMails
